import Mathlib

/-!
Verification of the core load-generation engine of dnsperf (modified 2.3.2),
shallowly embedded from `src/dnsperf.c`.  Machine integers are modelled as
`Nat`, taken modulo `2 ^ 64` wherever the C code performs `uint64_t`
arithmetic that can wrap.
-/

/-- The modulus of `uint64_t` arithmetic, `2^64`. -/
def U64 : Nat := 2 ^ 64

/-- Constant `ISC_UINT64_MAX`, the sentinel timestamp meaning "acquired but not yet sent". -/
def SENTINEL : Nat := 2 ^ 64 - 1

/-- Constant `NQIDS`: number of query slots per worker, 65536. -/
def NQIDS : Nat := 65536

/-- Constant `MAX_SOCKETS`, 256. -/
def MAX_SOCKETS : Nat := 256

/-- Constant `MAX_DETAIL_NUM`, 100000000 (dnsperf.c line 87). -/
def MAX_DETAIL_NUM : Nat := 100000000

/-- Function `per_thread(total, nthreads, offset)` from dnsperf.c lines 1078-1093:
`value = total / nthreads`, then `value++` when `value * nthreads < total`
and `offset < total - value * nthreads`.  All quantities are `uint32_t`;
on the uint32 domain no operation here can wrap, so plain `Nat` is faithful
(the subtraction `total - temp_total` is guarded by `temp_total < total`). -/
def per_thread (total nthreads offset : Nat) : Nat :=
  let value := total / nthreads
  let temp_total := value * nthreads
  if temp_total < total ∧ offset < total - temp_total then value + 1 else value

/-- The two thread-count clamps at the end of `setup` (dnsperf.c lines 531-543):
`if (max_qps > 0 && threads > max_qps) threads = max_qps;`
then `if (threads > clients) threads = clients;`. -/
def setup_threads (threads max_qps clients : Nat) : Nat :=
  let t1 := if 0 < max_qps ∧ max_qps < threads then max_qps else threads
  if clients < t1 then clients else t1

/-- Per-thread limits computed by `threadinfo_init` (dnsperf.c lines 1121-1136). -/
structure ThreadLimits where
  max_outstanding : Nat
  max_qps : Nat
  nsocks : Nat
deriving DecidableEq

/-- The quota distribution and clamping of `threadinfo_init` (dnsperf.c lines
1121-1136): `max_outstanding`, `max_qps` and `nsocks` are each computed by
`per_thread`, then `max_outstanding` is clamped to `NQIDS` and `nsocks` to
`MAX_SOCKETS`. -/
def threadinfo_limits (g_max_outstanding g_max_qps g_clients nthreads offset : Nat) :
    ThreadLimits :=
  let mo := per_thread g_max_outstanding nthreads offset
  let mq := per_thread g_max_qps nthreads offset
  let ns := per_thread g_clients nthreads offset
  ⟨if NQIDS < mo then NQIDS else mo, mq, if MAX_SOCKETS < ns then MAX_SOCKETS else ns⟩

/-- Claim C6: for every global quota `total` and thread count `N > 0`, the
per-thread share computed for thread `k < N` equals
`total / N + (1 if k < total % N else 0)`, and the same `per_thread` function
is what `threadinfo_init` applies to `max_outstanding`, `max_qps` and
`clients`. -/
theorem per_thread_share (total N k : Nat) (hN : 0 < N) (_hk : k < N) :
    per_thread total N k = total / N + (if k < total % N then 1 else 0) ∧
    (∀ a b c, (threadinfo_limits a b c N k).max_qps = per_thread b N k) := by
  constructor
  · have h1 := Nat.div_add_mod total N
    rw [Nat.mul_comm] at h1
    have hmlt : total % N < N := Nat.mod_lt _ hN
    unfold per_thread
    simp only []
    by_cases h : total / N * N < total ∧ k < total - total / N * N
    · rw [if_pos h, if_pos (show k < total % N by omega)]
    · rw [if_neg h, if_neg (show ¬ k < total % N by omega)]
      omega
  · intro a b c
    rfl

/-- Witness for C6 at `total = 10`, `N = 3`, `k = 1`:
`per_thread 10 3 1 = 4 = 10 / 3 + 1` since `1 < 10 % 3`. -/
theorem per_thread_share_witness :
    per_thread 10 3 1 = 10 / 3 + (if 1 < 10 % 3 then 1 else 0) := by
  exact (per_thread_share 10 3 1 (by decide) (by decide)).1

/-- Counterexample to claim C4 as stated: with configured `threads = 2`,
`max_qps = 0` and `clients = 5`, the configured `max_qps` (0) is smaller than
the thread count (2), yet `setup` leaves the thread count at 2 instead of
reducing it to 0, because the reduction is guarded by `max_qps > 0`. -/
theorem setup_threads_qps_zero_cx :
    0 < 2 ∧ setup_threads 2 0 5 = 2 := by decide

/-- Claim C4 (amended): after `setup`, whenever the configured `max_qps` is
nonzero and smaller than the configured thread count `N`, `N` becomes
`max_qps` (further capped by `clients`); `N` never exceeds `clients`; and
`threadinfo_init` clamps each thread's `max_outstanding` to at most 65536 and
its `nsocks` to at most 256. -/
theorem setup_clamps (t q c : Nat) (hq : 0 < q) (hqt : q < t) :
    setup_threads t q c = min q c ∧
    (∀ t' q' c', setup_threads t' q' c' ≤ c') ∧
    (∀ a b d N k, (threadinfo_limits a b d N k).max_outstanding ≤ NQIDS) ∧
    (∀ a b d N k, (threadinfo_limits a b d N k).nsocks ≤ MAX_SOCKETS) := by
  refine ⟨?_, ?_, ?_, ?_⟩
  · show (if c < (if 0 < q ∧ q < t then q else t) then c
        else (if 0 < q ∧ q < t then q else t)) = min q c
    rw [if_pos (⟨hq, hqt⟩ : 0 < q ∧ q < t)]
    split <;> omega
  · intro t' q' c'
    show (if c' < (if 0 < q' ∧ q' < t' then q' else t') then c'
        else (if 0 < q' ∧ q' < t' then q' else t')) ≤ c'
    split <;> split <;> omega
  · intro a b d N k
    show (if NQIDS < per_thread a N k then NQIDS else per_thread a N k) ≤ NQIDS
    split <;> omega
  · intro a b d N k
    show (if MAX_SOCKETS < per_thread d N k then MAX_SOCKETS else per_thread d N k) ≤
      MAX_SOCKETS
    split <;> omega

/-- Witness for C4 at `threads = 5`, `max_qps = 3`, `clients = 10`:
the thread count is reduced to 3. -/
theorem setup_clamps_witness : setup_threads 5 3 10 = min 3 10 :=
  (setup_clamps 5 3 10 (by decide) (by decide)).1

/-- The full list of slot ids `0, 1, ..., NQIDS-1`.  Marked irreducible so
that the elaborator never tries to evaluate the 65536-element list. -/
def allIds : List Nat := List.range NQIDS

theorem allIds_nodup : allIds.Nodup := List.nodup_range NQIDS

theorem allIds_length : allIds.length = NQIDS := List.length_range NQIDS

theorem mem_allIds {q : Nat} : q ∈ allIds ↔ q < NQIDS := List.mem_range

attribute [irreducible] allIds

/-- The three slot-movement operations (dnsperf.c lines 563-567). -/
inductive QueryMoveOp where
  | prepend_unused
  | append_unused
  | prepend_outstanding
deriving DecidableEq

/-- The two intrusive per-worker lists, with slots identified by their index
(= DNS transaction ID) in the `queries` array.  The head of each C list is
the head of the Lean list. -/
structure QState where
  outstanding : List Nat
  unused : List Nat
deriving DecidableEq

/-- Function `query_move` (dnsperf.c lines 569-587): unlink the slot from the list it
is currently on (`ISC_LIST_UNLINK(*q->list, q, link)`), then prepend/append
it to the requested list.  In the C code the slot is always a member of
exactly one of the two lists; erasing the id from both lists is then the
same as unlinking it from `*q->list`. -/
def query_move (s : QState) (q : Nat) (op : QueryMoveOp) : QState :=
  let o := s.outstanding.erase q
  let u := s.unused.erase q
  match op with
  | .prepend_unused => ⟨o, q :: u⟩
  | .append_unused => ⟨o, u ++ [q]⟩
  | .prepend_outstanding => ⟨q :: o, u⟩

/-- Invariant I1 as a permutation: the two lists together hold each of the
65536 slot ids exactly once. -/
def SlotInv (s : QState) : Prop :=
  (s.outstanding ++ s.unused).Perm allIds

/-- The initial slot state built by `threadinfo_init` (dnsperf.c lines
1106-1112): both lists start empty and slots `0, 1, ..., NQIDS-1` are
appended to `unused_queries` in order. -/
def initSlotState : QState := ⟨[], allIds⟩

/-- Moving a member id out of a duplicate-free pair of lists and re-adding
it yields a permutation of the original pair. -/
theorem cons_erase_both_perm {l₁ l₂ : List Nat} {q : Nat}
    (hmem : q ∈ l₁ ++ l₂) (hnd : (l₁ ++ l₂).Nodup) :
    (q :: (l₁.erase q ++ l₂.erase q)).Perm (l₁ ++ l₂) := by
  rcases List.mem_append.mp hmem with h1 | h2
  · have h2 : q ∉ l₂ := by
      rcases List.nodup_append.mp hnd with ⟨-, -, hdisj⟩
      exact fun hq => hdisj h1 hq
    rw [List.erase_of_not_mem h2]
    exact List.Perm.append_right l₂ (List.perm_cons_erase h1).symm
  · have h1 : q ∉ l₁ := by
      rcases List.nodup_append.mp hnd with ⟨-, -, hdisj⟩
      exact fun hq => hdisj hq h2
    rw [List.erase_of_not_mem h1]
    exact (List.perm_middle.symm).trans
      (List.Perm.append_left l₁ (List.perm_cons_erase h2).symm)


/-- The empty list is a left identity for append, as a permutation. -/
theorem nil_append_perm (l : List Nat) : (([] : List Nat) ++ l).Perm l := by
  rw [List.nil_append]

/-- Claim C7: after `threadinfo_init` all 65536 slots are on the unused list;
every `query_move` (with any of its three ops, on any slot id) preserves the
invariant that the two lists partition the 65536 slot ids; consequently each
slot id is on exactly one of the two lists and
`|outstanding| + |unused| = 65536` at all times. -/
theorem slot_invariant_I1 :
    (initSlotState.outstanding = [] ∧ initSlotState.unused = allIds ∧
      SlotInv initSlotState) ∧
    (∀ s q op, SlotInv s → q < NQIDS → SlotInv (query_move s q op)) ∧
    (∀ s, SlotInv s → ∀ q, q < NQIDS → (q ∈ s.outstanding ↔ q ∉ s.unused)) ∧
    (∀ s, SlotInv s → s.outstanding.length + s.unused.length = NQIDS) := by
  refine ⟨⟨rfl, rfl, nil_append_perm allIds⟩, ?_, ?_, ?_⟩
  · intro s q op hinv hq
    have hmem : q ∈ s.outstanding ++ s.unused :=
      hinv.mem_iff.mpr (mem_allIds.mpr hq)
    have hnd : (s.outstanding ++ s.unused).Nodup :=
      hinv.symm.nodup allIds_nodup
    have key := cons_erase_both_perm hmem hnd
    cases op with
    | prepend_unused =>
      show (s.outstanding.erase q ++ (q :: s.unused.erase q)).Perm allIds
      exact (List.perm_middle.trans key).trans hinv
    | append_unused =>
      show (s.outstanding.erase q ++ (s.unused.erase q ++ [q])).Perm allIds
      rw [← List.append_assoc]
      exact ((List.perm_append_singleton q _).trans key).trans hinv
    | prepend_outstanding =>
      show ((q :: s.outstanding.erase q) ++ s.unused.erase q).Perm allIds
      exact key.trans hinv
  · intro s hinv q hq
    have hmem : q ∈ s.outstanding ++ s.unused :=
      hinv.mem_iff.mpr (mem_allIds.mpr hq)
    have hnd : (s.outstanding ++ s.unused).Nodup :=
      hinv.symm.nodup allIds_nodup
    rcases List.nodup_append.mp hnd with ⟨-, -, hdisj⟩
    constructor
    · exact fun ho hu => hdisj ho hu
    · exact fun hnu => (List.mem_append.mp hmem).resolve_right hnu
  · intro s hinv
    have h := hinv.length_eq
    rw [List.length_append, allIds_length] at h
    exact h

/-- Witness for C7: moving slot 0 from the freshly initialized unused list to
the outstanding list preserves invariant I1, and the resulting list lengths
still sum to 65536. -/
theorem slot_invariant_I1_witness :
    SlotInv (query_move initSlotState 0 QueryMoveOp.prepend_outstanding) ∧
    (query_move initSlotState 0 QueryMoveOp.prepend_outstanding).outstanding.length +
      (query_move initSlotState 0 QueryMoveOp.prepend_outstanding).unused.length = NQIDS := by
  have hinv : SlotInv (query_move initSlotState 0 QueryMoveOp.prepend_outstanding) :=
    slot_invariant_I1.2.1 initSlotState 0 QueryMoveOp.prepend_outstanding
      (nil_append_perm allIds) (by norm_num [NQIDS])
  exact ⟨hinv, slot_invariant_I1.2.2.2 _ hinv⟩

/-- A query slot as seen by the timeout and cancellation code: its id (array
index = DNS transaction ID), its `timestamp`, and its optional `desc`.
`timestamp = SENTINEL` is the "acquired but not yet sent" state. -/
structure QSlot where
  id : Nat
  timestamp : Nat
  desc : Option String
deriving DecidableEq

/-- Worker state relevant to `process_timeouts`: the two lists (head of the
C list = head of the Lean list) and the `num_timedout` counter. -/
structure TState where
  outstanding : List QSlot
  unused : List QSlot
  num_timedout : Nat
deriving DecidableEq

/-- The condition of the `do ... while` loop in `process_timeouts`
(dnsperf.c line 809): `q->timestamp < now && now - q->timestamp >= timeout`.
Both comparisons are on `uint64_t`; `now - q->timestamp` is only evaluated
under `q->timestamp < now`, so `Nat` subtraction is faithful. -/
def timedOut (now timeout : Nat) (q : QSlot) : Bool :=
  decide (q.timestamp < now) && decide (timeout ≤ now - q.timestamp)

/-- The `do ... while` loop of `process_timeouts` applied to the slots after
the first one, oldest first (i.e. to the reversed outstanding list minus its
head): returns the slots moved (in move order) and the remaining reversed
list. -/
def sweepWhile (now timeout : Nat) : List QSlot → List QSlot × List QSlot
  | [] => ([], [])
  | q :: rest =>
    if timedOut now timeout q then
      let p := sweepWhile now timeout rest
      (q :: p.1, p.2)
    else ([], q :: rest)

/-- Function `process_timeouts` (dnsperf.c lines 781-812): look at the tail (oldest)
of `outstanding`; return unchanged if it is absent, has `timestamp > now`,
or `now - timestamp < timeout`; otherwise repeatedly move the tail to the
tail of `unused` (`append_unused`) and bump `num_timedout`, while the new
tail satisfies the loop condition. -/
def process_timeouts (st : TState) (now timeout : Nat) : TState :=
  match st.outstanding.reverse with
  | [] => st
  | q :: rest =>
    if now < q.timestamp ∨ now - q.timestamp < timeout then st
    else
      let p := sweepWhile now timeout rest
      ⟨p.2.reverse, st.unused ++ (q :: p.1), st.num_timedout + (1 + p.1.length)⟩

/-- Lemma: `sweepWhile` computes the longest satisfying front of the reversed list. -/
theorem sweepWhile_eq (now timeout : Nat) (l : List QSlot) :
    sweepWhile now timeout l =
      (l.takeWhile (timedOut now timeout), l.dropWhile (timedOut now timeout)) := by
  induction l with
  | nil => rfl
  | cons q rest ih =>
    by_cases h : timedOut now timeout q
    · simp [sweepWhile, List.takeWhile_cons, List.dropWhile_cons, h, ih]
    · simp [sweepWhile, List.takeWhile_cons, List.dropWhile_cons, h]

/-- Counterexample to claim C8 as stated: at `now = 100`, `timeout = 50`,
with `outstanding = [slot 0 (timestamp 0), slot 1 (timestamp 100)]` (slot 1
is the tail the sweep inspects), slot 0 is on the outstanding list, has a
non-sentinel timestamp, and `now - timestamp = 100 ≥ 50 = timeout`, yet the
sweep reclaims nothing because the tail slot 1 is not yet timed out. -/
theorem process_timeouts_stale_cx :
    process_timeouts ⟨[⟨0, 0, none⟩, ⟨1, 100, none⟩], [], 0⟩ 100 50 =
      ⟨[⟨0, 0, none⟩, ⟨1, 100, none⟩], [], 0⟩ ∧
    (⟨0, 0, none⟩ : QSlot).timestamp ≠ SENTINEL ∧
    50 ≤ 100 - (⟨0, 0, none⟩ : QSlot).timestamp := by
  refine ⟨by rfl, ?_, by decide⟩
  show (0 : Nat) ≠ 2 ^ 64 - 1
  norm_num

/-- Claim C8 (amended): for any positive timeout, a sweep at time `now`
reclaims exactly the maximal tail segment of `outstanding` all of whose
slots satisfy `timestamp < now` and `now - timestamp ≥ timeout` (a sentinel
timestamp never satisfies this); each reclaimed slot is appended to `unused`
in reclaim order (oldest first) and `num_timedout` grows by the number
reclaimed; all slots before that segment stay on `outstanding`, even ones
that themselves satisfy the conditions. -/
theorem process_timeouts_sweep (st : TState) (now timeout : Nat)
    (ht : 1 ≤ timeout) :
    process_timeouts st now timeout =
      ⟨(st.outstanding.reverse.dropWhile (timedOut now timeout)).reverse,
        st.unused ++ st.outstanding.reverse.takeWhile (timedOut now timeout),
        st.num_timedout +
          (st.outstanding.reverse.takeWhile (timedOut now timeout)).length⟩ := by
  obtain ⟨o, u, n⟩ := st
  cases hrev : o.reverse with
  | nil =>
    have ho : o = [] := by simpa using congrArg List.reverse hrev
    subst ho
    simp [process_timeouts]
  | cons q rest =>
    have hor : o = (q :: rest).reverse := by
      have := congrArg List.reverse hrev
      simpa using this
    by_cases hg : now < q.timestamp ∨ now - q.timestamp < timeout
    · have hq : timedOut now timeout q = false := by
        simp only [timedOut, Bool.and_eq_false_iff, decide_eq_false_iff_not, not_lt, not_le]
        omega
      simp only [process_timeouts, hrev, if_pos hg, List.takeWhile_cons, hq,
        List.dropWhile_cons, Bool.false_eq_true, if_false, cond_false]
      rw [← hrev, List.reverse_reverse]
      simp
    · have hq : timedOut now timeout q = true := by
        simp only [timedOut, Bool.and_eq_true, decide_eq_true_eq]
        omega
      simp only [process_timeouts, hrev, if_neg hg, sweepWhile_eq,
        List.takeWhile_cons, List.dropWhile_cons, hq, if_true, cond_true,
        List.length_cons]
      congr 1
      omega

/-- Witness for C8: a single outstanding slot sent at time 0, swept at
`now = 10` with `timeout = 5`, is moved to `unused` and counted. -/
theorem process_timeouts_sweep_witness :
    process_timeouts ⟨[⟨0, 0, none⟩], [], 0⟩ 10 5 = ⟨[], [⟨0, 0, none⟩], 1⟩ :=
  (process_timeouts_sweep ⟨[⟨0, 0, none⟩], [], 0⟩ 10 5 (by decide)).trans (by rfl)

/-- Worker state relevant to `cancel_queries`: the two lists and the
`num_interrupted` counter. -/
structure CState where
  outstanding : List QSlot
  unused : List QSlot
  num_interrupted : Nat
deriving DecidableEq

/-- The effect of one `cancel_queries` iteration on the slot it drains: the
`desc` is freed (and nulled) only when the slot is counted, i.e. only when
its timestamp is not the sentinel (dnsperf.c lines 1066-1074). -/
def clearSlot (q : QSlot) : QSlot :=
  if q.timestamp = SENTINEL then q else ⟨q.id, q.timestamp, none⟩

/-- The `while (true)` loop of `cancel_queries` applied to the reversed
outstanding list (the loop repeatedly takes the tail): returns the slots in
the order they are appended to `unused`, and the number of
`num_interrupted` increments. -/
def cancelGo : List QSlot → List QSlot × Nat
  | [] => ([], 0)
  | q :: rest =>
    let p := cancelGo rest
    if q.timestamp = SENTINEL then (q :: p.1, p.2)
    else (⟨q.id, q.timestamp, none⟩ :: p.1, p.2 + 1)

/-- Function `cancel_queries` (dnsperf.c lines 1055-1076): drain the tail of
`outstanding` until empty, moving each slot to the tail of `unused`
(`append_unused`); slots whose timestamp is the sentinel are skipped by the
`continue` and not counted; the others bump `num_interrupted` and have their
`desc` freed. -/
def cancel_queries (s : CState) : CState :=
  let p := cancelGo s.outstanding.reverse
  ⟨[], s.unused ++ p.1, s.num_interrupted + p.2⟩

/-- Lemma: `cancelGo` clears descs of counted slots and counts the non-sentinel
slots. -/
theorem cancelGo_eq (l : List QSlot) :
    cancelGo l =
      (l.map clearSlot,
        (l.filter fun q => decide (q.timestamp ≠ SENTINEL)).length) := by
  induction l with
  | nil => rfl
  | cons q rest ih =>
    by_cases h : q.timestamp = SENTINEL
    · simp [cancelGo, clearSlot, h, ih, List.filter_cons]
    · simp [cancelGo, clearSlot, h, ih, List.filter_cons]

/-- Counterexample to claim C2 as stated: draining the single outstanding
slot `⟨3, 10, none⟩` while `unused = [⟨7, 0, none⟩]`, `cancel_queries`
places the drained slot at the tail of `unused` (after slot 7), not at its
head as the claim asserts. -/
theorem cancel_appends_cx :
    (cancel_queries ⟨[⟨3, 10, none⟩], [⟨7, 0, none⟩], 0⟩).unused =
      [⟨7, 0, none⟩, ⟨3, 10, none⟩] ∧
    (cancel_queries ⟨[⟨3, 10, none⟩], [⟨7, 0, none⟩], 0⟩).unused.head? ≠
      some ⟨3, 10, none⟩ := by
  constructor
  · show [(⟨7, 0, none⟩ : QSlot)] ++ [clearSlot ⟨3, 10, none⟩] = _
    have h : (10 : Nat) ≠ SENTINEL := by
      show (10 : Nat) ≠ 2 ^ 64 - 1
      norm_num
    simp [clearSlot, h]
  · intro h
    have h1 : ([(⟨7, 0, none⟩ : QSlot)] ++ [clearSlot ⟨3, 10, none⟩]).head? =
        some ⟨3, 10, none⟩ := h
    simp at h1

/-- Claim C2 (amended): slots released on a send-failure path
(`prepend_unused` in `do_send`: no ready socket, encoder failure, send
error, partial send) are prepended to the head of `unused`, and slots
reclaimed by timeout (`append_unused`) are appended to the tail; but the
slots drained from `outstanding` by `cancel_queries` are likewise appended
after the existing `unused` contents (in drain order, oldest tail first),
not prepended. -/
theorem release_path_order :
    (∀ (s : QState) (q : Nat),
      (query_move s q QueryMoveOp.prepend_unused).unused.head? = some q) ∧
    (∀ (s : QState) (q : Nat),
      (query_move s q QueryMoveOp.append_unused).unused.getLast? = some q) ∧
    (∀ (s : CState),
      (cancel_queries s).unused = s.unused ++ s.outstanding.reverse.map clearSlot) := by
  refine ⟨fun s q => rfl, fun s q => List.getLast?_concat _, fun s => ?_⟩
  show s.unused ++ (cancelGo s.outstanding.reverse).1 = _
  rw [cancelGo_eq]

/-- Counterexample to claim C5 as stated: a slot in the acquired-but-unsent
sentinel state is drained from `outstanding` by `cancel_queries` but skipped
by the `continue` before `num_interrupted++`, so `num_interrupted` grows by
0, not by the number of drained slots (1). -/
theorem cancel_sentinel_not_counted_cx :
    (⟨[⟨5, SENTINEL, none⟩], [], 0⟩ : CState).outstanding.length = 1 ∧
    (cancel_queries ⟨[⟨5, SENTINEL, none⟩], [], 0⟩).num_interrupted = 0 := by
  constructor
  · rfl
  · show 0 + (cancelGo [⟨5, SENTINEL, none⟩]).2 = 0
    simp [cancelGo]

/-- Claim C5 (amended): `cancel_queries` moves every slot remaining on
`outstanding` to `unused` (emptying `outstanding`), but increments
`num_interrupted` only for the drained slots whose timestamp is not the
acquired-but-unsent sentinel — by exactly the number of such slots — and
frees (`nulls`) the `desc` of exactly those counted slots. -/
theorem cancel_queries_drain (s : CState) :
    (cancel_queries s).outstanding = [] ∧
    (cancel_queries s).unused.length = s.unused.length + s.outstanding.length ∧
    (cancel_queries s).num_interrupted =
      s.num_interrupted +
        (s.outstanding.filter fun q => decide (q.timestamp ≠ SENTINEL)).length ∧
    (cancel_queries s).unused =
      s.unused ++ s.outstanding.reverse.map clearSlot := by
  refine ⟨rfl, ?_, ?_, ?_⟩
  · show (s.unused ++ (cancelGo s.outstanding.reverse).1).length = _
    rw [cancelGo_eq]
    simp
  · show s.num_interrupted + (cancelGo s.outstanding.reverse).2 = _
    rw [cancelGo_eq]
    simp only []
    rw [List.filter_reverse, List.length_reverse]
  · show s.unused ++ (cancelGo s.outstanding.reverse).1 = _
    rw [cancelGo_eq]

/-- Structure `stats_t` (dnsperf.c lines 120-135): per-thread counters.  All fields
are `uint64_t`; `rcodecounts` has 16 entries. -/
structure stats_t where
  rcodecounts : List Nat
  num_sent : Nat
  num_interrupted : Nat
  num_timedout : Nat
  num_completed : Nat
  total_request_size : Nat
  total_response_size : Nat
  latency_sum : Nat
  latency_sum_squares : Nat
  latency_min : Nat
  latency_max : Nat
deriving DecidableEq

/-- The `memset(total, 0, sizeof(*total))` zero initialization in
`sum_stats`. -/
def zeroStats : stats_t := ⟨List.replicate 16 0, 0, 0, 0, 0, 0, 0, 0, 0, 0, 0⟩

/-- One iteration of the `sum_stats` accumulation loop (dnsperf.c lines
373-394) for thread index `i`: every counter is added (uint64, hence
mod `2^64`); `latency_min` is overwritten exactly when
`stats->latency_min < total->latency_min || i == 0`; `latency_max` when
`stats->latency_max > total->latency_max`. -/
def addStats (total s : stats_t) (i : Nat) : stats_t :=
  { rcodecounts := (List.range 16).map
      (fun j => (total.rcodecounts.getD j 0 + s.rcodecounts.getD j 0) % U64),
    num_sent := (total.num_sent + s.num_sent) % U64,
    num_interrupted := (total.num_interrupted + s.num_interrupted) % U64,
    num_timedout := (total.num_timedout + s.num_timedout) % U64,
    num_completed := (total.num_completed + s.num_completed) % U64,
    total_request_size := (total.total_request_size + s.total_request_size) % U64,
    total_response_size := (total.total_response_size + s.total_response_size) % U64,
    latency_sum := (total.latency_sum + s.latency_sum) % U64,
    latency_sum_squares := (total.latency_sum_squares + s.latency_sum_squares) % U64,
    latency_min := if s.latency_min < total.latency_min ∨ i = 0 then s.latency_min
      else total.latency_min,
    latency_max := if total.latency_max < s.latency_max then s.latency_max
      else total.latency_max }

/-- The `for (i = 0; i < config->threads; i++)` loop of `sum_stats`. -/
def sumGo : List stats_t → stats_t → Nat → stats_t
  | [], total, _ => total
  | s :: rest, total, i => sumGo rest (addStats total s i) (i + 1)

/-- Function `sum_stats` (dnsperf.c lines 366-395) applied to the per-thread stats,
in thread order. -/
def sum_stats (l : List stats_t) : stats_t := sumGo l zeroStats 0

/-- A thread that completed no queries: all counters zero-initialized
(`threadinfo_init` memsets the whole `threadinfo_t`). -/
def statsZeroThread : stats_t := zeroStats

/-- A thread that completed 3 queries with latencies summing to 18,
minimum 5 and maximum 8. -/
def statsBusyThread : stats_t :=
  { zeroStats with
    num_sent := 3
    num_completed := 3
    latency_sum := 18
    latency_min := 5
    latency_max := 8 }

/-- Claim C3 is the spec's intent, but the code diverges: with thread 0
having completed nothing (zero-initialized `latency_min = 0`) and thread 1
having `latency_min = 5` over 3 completions, `sum_stats` yields aggregated
`latency_min = 0` — the minimum over threads with nonzero completions would
be 5.  The `i == 0` initialization (dnsperf.c line 390) takes thread 0's
min unconditionally. -/
theorem sum_stats_latency_min_bug :
    statsZeroThread.num_completed = 0 ∧
    statsBusyThread.num_completed ≠ 0 ∧
    statsBusyThread.latency_min = 5 ∧
    (sum_stats [statsZeroThread, statsBusyThread]).latency_min = 0 := by
  refine ⟨rfl, by decide, rfl, ?_⟩
  show (addStats (addStats zeroStats statsZeroThread 0) statsBusyThread 1).latency_min = 0
  decide

/-- The per-thread latency recorder plus receiver stats: `latency_detail` is
the heap array (modelled as a total function on indices), `latency_num` the
next write position (dnsperf.c lines 181-183). -/
structure RecvState where
  latency_detail : Nat → Nat
  latency_num : Nat
  stats : stats_t

/-- The per-completion processing of `do_recv` (dnsperf.c lines 966-991):
`latency = when - sent`; the latency is stored at `latency_detail[latency_num]`
and `latency_num` incremented only under the guard
`latency_num < MAX_DETAIL_NUM - 1`; then `num_completed++`,
`total_response_size += size`, `rcodecounts[rcode]++`,
`latency_sum += latency`, `latency_sum_squares += latency*latency`, and
min/max are updated (the min test also fires when the just-incremented
`num_completed == 1`).  All counters are `uint64_t` (mod `2^64`). -/
def completeOne (st : RecvState) (latency rcode size : Nat) : RecvState :=
  { latency_detail :=
      if st.latency_num < MAX_DETAIL_NUM - 1 then
        Function.update st.latency_detail st.latency_num latency
      else st.latency_detail
    latency_num :=
      if st.latency_num < MAX_DETAIL_NUM - 1 then st.latency_num + 1
      else st.latency_num
    stats :=
      { st.stats with
        num_completed := (st.stats.num_completed + 1) % U64
        total_response_size := (st.stats.total_response_size + size) % U64
        rcodecounts := st.stats.rcodecounts.set rcode
          ((st.stats.rcodecounts.getD rcode 0 + 1) % U64)
        latency_sum := (st.stats.latency_sum + latency) % U64
        latency_sum_squares := (st.stats.latency_sum_squares + latency * latency) % U64
        latency_min :=
          if latency < st.stats.latency_min ∨ (st.stats.num_completed + 1) % U64 = 1
          then latency else st.stats.latency_min
        latency_max :=
          if st.stats.latency_max < latency then latency else st.stats.latency_max } }

/-- The sequence of individually stored latencies: the first `latency_num`
cells of the detail array, in receipt order. -/
def storedLatencies (st : RecvState) : List Nat :=
  (List.range st.latency_num).map st.latency_detail

/-- Writing at the next free cell and bumping the write position appends to
the stored prefix. -/
theorem storedLatencies_update (f : Nat → Nat) (n lat : Nat) :
    (List.range (n + 1)).map (Function.update f n lat) =
      (List.range n).map f ++ [lat] := by
  rw [List.range_succ, List.map_append]
  congr 1
  · apply List.map_congr_left
    intro a ha
    exact Function.update_noteq (Nat.ne_of_lt (List.mem_range.mp ha)) lat f
  · simp [Function.update_same]

/-- Counterexample to claim C1 as stated: with `latency_num = 10^8 - 1`
entries already stored — which is fewer than the claimed cap of `10^8` — a
completed query's latency is NOT appended, because the code's guard is
`latency_num < MAX_DETAIL_NUM - 1` (dnsperf.c line 967): the effective cap
is `10^8 - 1` entries. -/
theorem latency_cap_off_by_one_cx :
    MAX_DETAIL_NUM - 1 < MAX_DETAIL_NUM ∧
    (completeOne ⟨fun _ => 0, MAX_DETAIL_NUM - 1, zeroStats⟩ 7 0 10).latency_num =
      MAX_DETAIL_NUM - 1 := by
  constructor
  · norm_num [MAX_DETAIL_NUM]
  · simp [completeOne]

/-- Claim C1 (amended): the recorder stores up to `10^8 - 1` individual
latencies: the latency of a completed query is appended to the detail array
exactly when fewer than `10^8 - 1` entries are already stored; completions
beyond that cap still update all the summary statistics (`num_completed`,
`latency_sum`, sum of squares, min, max) but are not stored individually. -/
theorem latency_detail_cap (st : RecvState) (lat rcode size : Nat) :
    (st.latency_num < MAX_DETAIL_NUM - 1 →
      storedLatencies (completeOne st lat rcode size) = storedLatencies st ++ [lat] ∧
      (completeOne st lat rcode size).latency_num = st.latency_num + 1) ∧
    (MAX_DETAIL_NUM - 1 ≤ st.latency_num →
      storedLatencies (completeOne st lat rcode size) = storedLatencies st ∧
      (completeOne st lat rcode size).latency_num = st.latency_num) ∧
    (completeOne st lat rcode size).stats.num_completed =
      (st.stats.num_completed + 1) % U64 ∧
    (completeOne st lat rcode size).stats.latency_sum =
      (st.stats.latency_sum + lat) % U64 ∧
    (completeOne st lat rcode size).stats.latency_sum_squares =
      (st.stats.latency_sum_squares + lat * lat) % U64 ∧
    (completeOne st lat rcode size).stats.latency_min =
      (if lat < st.stats.latency_min ∨ (st.stats.num_completed + 1) % U64 = 1
        then lat else st.stats.latency_min) ∧
    (completeOne st lat rcode size).stats.latency_max =
      (if st.stats.latency_max < lat then lat else st.stats.latency_max) := by
  refine ⟨?_, ?_, rfl, rfl, rfl, rfl, rfl⟩
  · intro h
    have h1 : (completeOne st lat rcode size).latency_num = st.latency_num + 1 := by
      simp [completeOne, if_pos h]
    have h2 : (completeOne st lat rcode size).latency_detail =
        Function.update st.latency_detail st.latency_num lat := by
      simp [completeOne, if_pos h]
    refine ⟨?_, h1⟩
    simp only [storedLatencies, h1, h2]
    exact storedLatencies_update st.latency_detail st.latency_num lat
  · intro h
    have hn : ¬ st.latency_num < MAX_DETAIL_NUM - 1 := not_lt.mpr h
    constructor
    · simp [storedLatencies, completeOne, if_neg hn]
    · simp [completeOne, if_neg hn]

/-- Witness for C1: from an empty recorder, a completion with latency 7 is
appended. -/
theorem latency_detail_cap_witness :
    storedLatencies (completeOne ⟨fun _ => 0, 0, zeroStats⟩ 7 0 10) =
      storedLatencies ⟨fun _ => 0, 0, zeroStats⟩ ++ [7] :=
  ((latency_detail_cap ⟨fun _ => 0, 0, zeroStats⟩ 7 0 10).1
    (by norm_num [MAX_DETAIL_NUM])).1

/-- Byte swap: `ntohs` applied to a 16-bit word as stored in the packet buffer, i.e. swap
the two bytes (big-endian wire order to host order). -/
def ntohs16 (w : Nat) : Nat := (w % 256) * 256 + (w / 256) % 256

/-- The fields `recv_one` extracts from a received packet (dnsperf.c lines
843-851): `qid = ntohs(packet_header[0])`,
`rcode = ntohs(packet_header[1]) & 0xF` (`& 0xF` is `% 16`), and the
received size. -/
structure ReceivedQuery where
  qid : Nat
  rcode : Nat
  size : Nat
deriving DecidableEq

/-- The header extraction of `recv_one` on the first two 16-bit words `w0, w1`
of the packet. -/
def recv_extract (w0 w1 size : Nat) : ReceivedQuery :=
  ⟨ntohs16 w0, ntohs16 w1 % 16, size⟩

/-- Claim C10: the rcode extracted by `recv_one` equals the host-order flags
word masked with `0xF`, hence is always `< 16`, so the receiver's
`rcodecounts[rcode]++` in `do_recv` stays inside the 16-entry
`rcodecounts` array. -/
theorem rcode_in_bounds (w0 w1 size lat : Nat) (st : RecvState)
    (hlen : st.stats.rcodecounts.length = 16) :
    (recv_extract w0 w1 size).rcode = ntohs16 w1 % 16 ∧
    (recv_extract w0 w1 size).rcode < 16 ∧
    (recv_extract w0 w1 size).rcode < st.stats.rcodecounts.length ∧
    (completeOne st lat (recv_extract w0 w1 size).rcode size).stats.rcodecounts.length
      = 16 := by
  refine ⟨rfl, Nat.mod_lt _ (by norm_num), ?_, ?_⟩
  · rw [hlen]
    exact Nat.mod_lt _ (by norm_num)
  · show (st.stats.rcodecounts.set ((recv_extract w0 w1 size).rcode) _).length = 16
    rw [List.length_set, hlen]

/-- Witness for C10: flags word `0x0300` on the wire (`w1 = 3` in memory
order) yields rcode 3, and the rcode-count update keeps 16 entries. -/
theorem rcode_in_bounds_witness :
    (recv_extract 0 768 20).rcode < 16 ∧
    (completeOne ⟨fun _ => 0, 0, zeroStats⟩ 7 (recv_extract 0 768 20).rcode
      20).stats.rcodecounts.length = 16 := by
  have h := rcode_in_bounds 0 768 20 7 ⟨fun _ => 0, 0, zeroStats⟩ (by decide)
  exact ⟨h.2.1, h.2.2.2⟩

/-- Machine subtraction `a - b` on `uint64_t` (two's complement wraparound), for
`a, b < 2^64`. -/
def sub64 (a b : Nat) : Nat := (a + (U64 - b)) % U64

/-- Outcome of the rate-limiting step at the top of the sender loop: either
sleep for the given number of microseconds and restart the iteration
(before any slot is acquired or anything is sent), or fall through and
proceed to send. -/
inductive RateDecision where
  | sleepRestart (us : Nat)
  | proceed
deriving DecidableEq

/-- The rate-limiting block of `do_send` (dnsperf.c lines 645-654):
if `max_qps > 0`, compute `run_time = now - start_time` and
`req_time = (MILLION * num_sent) / max_qps` in `uint64_t` arithmetic; if
`req_time > run_time`, `usleep(req_time - run_time)` and `continue`. -/
def rate_limit_step (max_qps num_sent now start_time : Nat) : RateDecision :=
  if 0 < max_qps then
    let run_time := sub64 now start_time
    let req_time := 1000000 * num_sent % U64 / max_qps
    if run_time < req_time then RateDecision.sleepRestart (sub64 req_time run_time)
    else RateDecision.proceed
  else RateDecision.proceed

/-- Claim C9: in every sender-loop iteration with `max_qps > 0` (and no
`uint64` wraparound: `start_time ≤ now < 2^64` and
`10^6 · num_sent < 2^64`), the sender computes
`required_time = (10^6 · num_sent) / max_qps` by exact integer division and,
when it exceeds the elapsed `now - start_time`, sleeps exactly the
difference and restarts the iteration without sending; otherwise it
proceeds. -/
theorem rate_limit_exact (max_qps num_sent now start_time : Nat)
    (hq : 0 < max_qps) (hst : start_time ≤ now) (hnow : now < U64)
    (hns : 1000000 * num_sent < U64) :
    rate_limit_step max_qps num_sent now start_time =
      (if now - start_time < 1000000 * num_sent / max_qps
        then RateDecision.sleepRestart
          (1000000 * num_sent / max_qps - (now - start_time))
        else RateDecision.proceed) := by
  have hrun : sub64 now start_time = now - start_time := by
    simp only [sub64, U64] at hnow ⊢
    omega
  have hreq : 1000000 * num_sent % U64 = 1000000 * num_sent :=
    Nat.mod_eq_of_lt hns
  show (if 0 < max_qps then _ else _) = _
  rw [if_pos hq]
  simp only [hrun, hreq]
  by_cases h : now - start_time < 1000000 * num_sent / max_qps
  · rw [if_pos h, if_pos h]
    have hreqlt : 1000000 * num_sent / max_qps < U64 :=
      lt_of_le_of_lt (Nat.div_le_self _ _) hns
    have : sub64 (1000000 * num_sent / max_qps) (now - start_time) =
        1000000 * num_sent / max_qps - (now - start_time) := by
      simp only [sub64, U64] at hreqlt ⊢
      omega
    rw [this]
  · rw [if_neg h, if_neg h]

/-- Witness for C9: with `max_qps = 1000`, `num_sent = 5`, `now = 2`,
`start_time = 0`, the required time is 5000 µs, the elapsed time 2 µs, and
the sender sleeps exactly 4998 µs and restarts. -/
theorem rate_limit_exact_witness :
    rate_limit_step 1000 5 2 0 = RateDecision.sleepRestart 4998 := by
  have h := rate_limit_exact 1000 5 2 0 (by norm_num) (by norm_num)
    (by norm_num [U64]) (by norm_num [U64])
  rw [h]
  norm_num
